import Mathlib

/-!
Shallow embedding of `src/assignmentManager.js`: classes `Assignment`,
`Student` and `ClassList`, their operations, and the two deferred
callbacks (the auto-submit timer scheduled by `startWorking` and the
grading event scheduled by `submitAssignment`).

Modelling conventions:
  * JS numbers that carry grades are modelled as `ℚ` (all grades the
    program produces are integers in `[0,100]`, and the overall grade is
    an exact average of such numbers, so `ℚ` is exact here).
  * Statuses are the literal strings of the source
    (`"not assigned"`, `"released"`, `"working"`, `"submitted"`,
    `"final reminder"`, `"pass"`, `"fail"`).
  * In-place mutation of the `Assignment` object returned by
    `_findAssignment` is modelled by rewriting the first list entry with
    the matching name (`updateFirst`); `Array.prototype.find` returns the
    first match, so this is the object the source mutates.
  * A call to `_notifyObserver` is recorded as a `Notif` value (the data
    the `Observer` reads: student name, assignment name, status).  The
    source skips the call when no observer is attached; the `Notif` list
    records the emissions that happen when one is.
  * A `setTimeout` callback is recorded as a pending `Event`; executing
    an event applies the body of the corresponding source callback.  The
    grading callback draws `Math.floor(Math.random() * 101)`; the drawn
    value is a parameter of the event execution.
-/

structure Assignment where
  assignmentName : String
  status : String
  grade : Option ℚ
  isSubmitted : Bool
deriving DecidableEq, Repr

/-- The `Assignment` constructor: status `"not assigned"`, no grade,
not submitted. -/
def Assignment.make (assignmentName : String) : Assignment :=
  { assignmentName := assignmentName
    status := "not assigned"
    grade := none
    isSubmitted := false }

/-- `Assignment.setGrade`: store the numeric grade and set status
`"pass"` when `grade > 50`, else `"fail"` (strict inequality). -/
def Assignment.setGrade (a : Assignment) (grade : ℚ) : Assignment :=
  { a with grade := some grade
           status := if grade > 50 then "pass" else "fail" }

/-- A recorded call to `observer.notify(student, assignment)`: the fields
the `Observer` reads. -/
structure Notif where
  studentName : String
  assignmentName : String
  status : String
deriving DecidableEq, Repr

/-- A pending `setTimeout` callback scheduled by a student operation:
the auto-submit timer from `startWorking` or the grading event from
`submitAssignment`, identified by the assignment name the closure
captured. -/
inductive Event where
  | autoSubmit (assignmentName : String)
  | grading (assignmentName : String)
deriving DecidableEq, Repr

structure Student where
  fullName : String
  email : String
  assignmentStatuses : List Assignment
  overallGrade : Option ℚ
deriving DecidableEq, Repr

/-- The `Student` constructor: empty assignment list, `overallGrade`
null. -/
def Student.make (fullName email : String) : Student :=
  { fullName := fullName
    email := email
    assignmentStatuses := []
    overallGrade := none }

/-- `Student._findAssignment`: first assignment with the given name. -/
def Student.findAssignment (s : Student) (assignmentName : String) :
    Option Assignment :=
  s.assignmentStatuses.find? (fun a => a.assignmentName == assignmentName)

/-- Rewrite the first assignment named `n` with `f`: the model of the
source mutating, in place, the object `_findAssignment` returned. -/
def updateFirst (l : List Assignment) (n : String)
    (f : Assignment → Assignment) : List Assignment :=
  match l with
  | [] => []
  | a :: rest =>
    if a.assignmentName == n then f a :: rest
    else a :: updateFirst rest n f

/-- The notification record `_notifyObserver(assignment)` produces for
the first assignment named `n` in the current state. -/
def Student.notifOf (s : Student) (n : String) : List Notif :=
  match s.findAssignment n with
  | some a => [⟨s.fullName, a.assignmentName, a.status⟩]
  | none => []

/-- `Student.updateAssignmentStatus(name, grade?)`: create the assignment
with status `"released"` if absent; if a numeric grade is given, call
`setGrade`; always notify. -/
def Student.updateAssignmentStatus (s : Student) (assignmentName : String)
    (grade : Option ℚ) : Student × List Notif :=
  let statuses :=
    if (s.findAssignment assignmentName).isSome then s.assignmentStatuses
    else s.assignmentStatuses ++
      [{ Assignment.make assignmentName with status := "released" }]
  let statuses :=
    match grade with
    | some g => updateFirst statuses assignmentName (fun a => a.setGrade g)
    | none => statuses
  let s1 := { s with assignmentStatuses := statuses }
  (s1, s1.notifOf assignmentName)

/-- `Student.getAssignmentStatus(name)`: `"Hasn\x27t been assigned"` when
the assignment is missing, `"Pass"`/`"Fail"` for the terminal statuses,
otherwise the raw status string. -/
def Student.getAssignmentStatus (s : Student) (assignmentName : String) :
    String :=
  match s.findAssignment assignmentName with
  | none => "Hasn\x27t been assigned"
  | some a =>
    if a.status == "pass" then "Pass"
    else if a.status == "fail" then "Fail"
    else a.status

/-- `Student.startWorking(name)`: create-if-absent, set status
`"working"`, notify, and schedule the auto-submit timer. -/
def Student.startWorking (s : Student) (assignmentName : String) :
    Student × List Notif × List Event :=
  let statuses :=
    if (s.findAssignment assignmentName).isSome then s.assignmentStatuses
    else s.assignmentStatuses ++ [Assignment.make assignmentName]
  let statuses :=
    updateFirst statuses assignmentName (fun a => { a with status := "working" })
  let s1 := { s with assignmentStatuses := statuses }
  (s1, s1.notifOf assignmentName, [Event.autoSubmit assignmentName])

/-- `Student.submitAssignment(name)`: create-if-absent; if already
submitted, return without any effect; otherwise set `isSubmitted`,
status `"submitted"`, notify, and schedule the grading event. -/
def Student.submitAssignment (s : Student) (assignmentName : String) :
    Student × List Notif × List Event :=
  let statuses :=
    if (s.findAssignment assignmentName).isSome then s.assignmentStatuses
    else s.assignmentStatuses ++ [Assignment.make assignmentName]
  let already :=
    ((statuses.find? (fun a => a.assignmentName == assignmentName)).map
      (fun a => a.isSubmitted)).getD false
  if already then ({ s with assignmentStatuses := statuses }, [], [])
  else
    let statuses1 :=
      updateFirst statuses assignmentName
        (fun a => { a with isSubmitted := true, status := "submitted" })
    let s1 := { s with assignmentStatuses := statuses1 }
    (s1, s1.notifOf assignmentName, [Event.grading assignmentName])

/-- `Student.getGrade()`: average of all graded assignments (null when
none are graded), stored in `overallGrade` and returned. -/
def Student.getGrade (s : Student) : Student × Option ℚ :=
  let gradedAssignments :=
    s.assignmentStatuses.filter (fun a => a.grade.isSome)
  if gradedAssignments.length = 0 then
    ({ s with overallGrade := none }, none)
  else
    let total :=
      gradedAssignments.foldl (fun sum a => sum + a.grade.getD 0) 0
    let average := total / (gradedAssignments.length : ℚ)
    ({ s with overallGrade := some average }, some average)

/-- The body of the grading `setTimeout` in `submitAssignment`, executed
with the drawn grade `g`: `setGrade`, refresh `overallGrade` via
`getGrade`, notify. -/
def Student.gradingFire (s : Student) (assignmentName : String) (g : ℚ) :
    Student × List Notif :=
  let statuses :=
    updateFirst s.assignmentStatuses assignmentName (fun a => a.setGrade g)
  let s1 := { s with assignmentStatuses := statuses }
  let s2 := (s1.getGrade).1
  (s2, s2.notifOf assignmentName)

/-- The body of the auto-submit `setTimeout` in `startWorking`: call
`submitAssignment` unless the captured assignment is already submitted
or terminal at fire time. -/
def Student.autoSubmitFire (s : Student) (assignmentName : String) :
    Student × List Notif × List Event :=
  match s.findAssignment assignmentName with
  | some a =>
    if !a.isSubmitted && a.status != "pass" && a.status != "fail" then
      s.submitAssignment assignmentName
    else (s, [], [])
  | none => (s, [], [])

structure ClassList where
  students : List Student
deriving DecidableEq, Repr

/-- `ClassList.addStudent`: push the student on the roster. -/
def ClassList.addStudent (cl : ClassList) (s : Student) : ClassList :=
  { cl with students := cl.students ++ [s] }

/-- `ClassList.removeStudent`: the source filters by object identity;
modelled as removal of the roster entry at a given position. -/
def ClassList.removeStudent (cl : ClassList) (i : Nat) : ClassList :=
  { cl with students := cl.students.eraseIdx i }

/-- `ClassList.findStudentByName`: first student with the given full
name. -/
def ClassList.findStudentByName (cl : ClassList) (fullName : String) :
    Option Student :=
  cl.students.find? (fun s => s.fullName == fullName)

/-- `ClassList.findOutstandingAssignments(name)`, transcribed from the
source: one pass accumulating the outstanding list and the
`anySubmittedForName` flag, then either that list or the fallback list
of students with any `"released"`/`"working"` assignment. -/
def ClassList.findOutstandingAssignments (cl : ClassList)
    (assignmentName : String) : List String :=
  let scan :=
    cl.students.foldl
      (fun (acc : List String × Bool) student =>
        match student.findAssignment assignmentName with
        | none => acc
        | some assignment =>
          let anySubmittedForName :=
            acc.2 || (assignment.status == "submitted" ||
                      assignment.status == "pass" ||
                      assignment.status == "fail")
          let outstandingForName :=
            if assignment.status != "submitted" &&
               assignment.status != "pass" &&
               assignment.status != "fail" then
              acc.1 ++ [student.fullName]
            else acc.1
          (outstandingForName, anySubmittedForName))
      ([], false)
  if scan.2 then scan.1
  else
    (cl.students.filter
      (fun student =>
        student.assignmentStatuses.any
          (fun a => a.status == "released" || a.status == "working"))).map
      (fun student => student.fullName)

/-- One deferred release callback of `releaseAssignmentsParallel`:
`updateAssignmentStatus(name)` (no grade) for every roster member. -/
def ClassList.releaseOne (cl : ClassList) (assignmentName : String) :
    ClassList :=
  let students :=
    cl.students.map
      (fun student => (student.updateAssignmentStatus assignmentName none).1)
  { cl with students := students }

/-- `ClassList.releaseAssignmentsParallel(names)`: the state once
`Promise.all` has resolved.  Each name's `setTimeout(..., 0)` callback
runs on the single-threaded event loop in insertion order, so the
resolved state is the fold of the per-name release callbacks. -/
def ClassList.releaseAssignmentsParallel (cl : ClassList)
    (assignmentNames : List String) : ClassList :=
  assignmentNames.foldl ClassList.releaseOne cl

/-- The body of `ClassList.sendReminder`'s `forEach` for one student:
skip students lacking the assignment or with a terminal status; force
status `"final reminder"`, notify, then `submitAssignment(name)`. -/
def Student.reminderStep (s : Student) (assignmentName : String) :
    Student × List Notif × List Event :=
  match s.findAssignment assignmentName with
  | none => (s, [], [])
  | some assignment =>
    if assignment.status == "pass" || assignment.status == "fail" then
      (s, [], [])
    else
      let statuses :=
        updateFirst s.assignmentStatuses assignmentName
          (fun a => { a with status := "final reminder" })
      let s1 := { s with assignmentStatuses := statuses }
      let r := s1.submitAssignment assignmentName
      (r.1, s1.notifOf assignmentName ++ r.2.1, r.2.2)

/-- The state of a student right after the reminder transition forced
the named assignment's status to `"final reminder"` (before the forced
submission that follows). -/
def Student.withFinalReminder (s : Student) (n : String) : Student :=
  let statuses :=
    updateFirst s.assignmentStatuses n
      (fun a => { a with status := "final reminder" })
  { s with assignmentStatuses := statuses }

/-- `ClassList.sendReminder(name)`: the reminder step applied to every
roster member; notifications and scheduled events are collected in
roster order. -/
def ClassList.sendReminder (cl : ClassList) (assignmentName : String) :
    ClassList × List Notif × List Event :=
  let students := cl.students.map (fun s => (s.reminderStep assignmentName).1)
  ({ cl with students := students },
   cl.students.flatMap (fun s => (s.reminderStep assignmentName).2.1),
   cl.students.flatMap (fun s => (s.reminderStep assignmentName).2.2))

/-- A public `Student` operation or a deferred callback firing on one
student. -/
inductive SOp where
  | update (assignmentName : String) (grade : Option ℚ)
  | startW (assignmentName : String)
  | submit (assignmentName : String)
  | readGrade
  | reminder (assignmentName : String)
  | autoFire (assignmentName : String)
  | gradeFire (assignmentName : String) (g : ℚ)
deriving DecidableEq, Repr

/-- Apply a student-level operation, keeping only the resulting state. -/
def Student.applyOp (s : Student) : SOp → Student
  | SOp.update n g => (s.updateAssignmentStatus n g).1
  | SOp.startW n => (s.startWorking n).1
  | SOp.submit n => (s.submitAssignment n).1
  | SOp.readGrade => (s.getGrade).1
  | SOp.reminder n => (s.reminderStep n).1
  | SOp.autoFire n => (s.autoSubmitFire n).1
  | SOp.gradeFire n g => (s.gradingFire n g).1

/-- Modify the roster entry at position `i`. -/
def modifyAt (l : List Student) (i : Nat) (f : Student → Student) :
    List Student :=
  match l, i with
  | [], _ => []
  | s :: rest, 0 => f s :: rest
  | s :: rest, Nat.succ j => s :: modifyAt rest j f

/-- A public `ClassList` operation, or a student-level operation (or
deferred callback) applied to the roster member at position `i`. -/
inductive COp where
  | addStudent (fullName email : String)
  | removeStudent (i : Nat)
  | studentOp (i : Nat) (op : SOp)
  | release (assignmentNames : List String)
  | remindAll (assignmentName : String)
deriving DecidableEq, Repr

/-- Apply a roster-level operation. -/
def ClassList.applyOp (cl : ClassList) : COp → ClassList
  | COp.addStudent fullName email => cl.addStudent (Student.make fullName email)
  | COp.removeStudent i => cl.removeStudent i
  | COp.studentOp i op =>
    { cl with students := modifyAt cl.students i (fun s => s.applyOp op) }
  | COp.release names => cl.releaseAssignmentsParallel names
  | COp.remindAll n => (cl.sendReminder n).1

/-- Apply a sequence of roster-level operations. -/
def ClassList.applyOps (cl : ClassList) (ops : List COp) : ClassList :=
  ops.foldl ClassList.applyOp cl

/-- An empty classroom, the state produced by the `ClassList`
constructor. -/
def ClassList.empty : ClassList := { students := [] }

/-- Spec wording for C1: some student has an assignment with the given
name whose status is `"submitted"`, `"pass"` or `"fail"`. -/
def ClassList.someoneCompleted (cl : ClassList) (assignmentName : String) :
    Bool :=
  cl.students.any
    (fun student =>
      match student.findAssignment assignmentName with
      | some a =>
        a.status == "submitted" || a.status == "pass" || a.status == "fail"
      | none => false)

/-- Spec wording for C1: the names of the students holding an assignment
with the given name whose status is none of `"submitted"`, `"pass"`,
`"fail"`, in roster order. -/
def ClassList.outstandingNames (cl : ClassList) (assignmentName : String) :
    List String :=
  (cl.students.filter
    (fun student =>
      match student.findAssignment assignmentName with
      | some a =>
        !(a.status == "submitted" || a.status == "pass" || a.status == "fail")
      | none => false)).map (fun student => student.fullName)

/-- Spec wording for C1: the names of the students holding at least one
assignment, of any name, whose status is `"released"` or `"working"`. -/
def ClassList.fallbackNames (cl : ClassList) : List String :=
  (cl.students.filter
    (fun student =>
      student.assignmentStatuses.any
        (fun a => a.status == "released" || a.status == "working"))).map
    (fun student => student.fullName)

/-- The two-mode query exactly as claim C1 words it. -/
def ClassList.specOutstandingQuery (cl : ClassList)
    (assignmentName : String) : List String :=
  if cl.someoneCompleted assignmentName then cl.outstandingNames assignmentName
  else cl.fallbackNames

/-- Spec wording for C5/C6: the unweighted arithmetic mean of the grades
of exactly the graded assignments, `none` when there are none. -/
def Student.specOverallGrade (s : Student) : Option ℚ :=
  let grades := s.assignmentStatuses.filterMap (fun a => a.grade)
  if grades.isEmpty then none else some (grades.sum / grades.length)

/-- The effect of the whole release batch on one student: each name of
the batch released in order via `updateAssignmentStatus(name)`.  Because
each release callback touches each student independently, the resolved
state of `releaseAssignmentsParallel` is this function mapped over the
roster. -/
def Student.releaseAll (s : Student) (assignmentNames : List String) :
    Student :=
  assignmentNames.foldl (fun s n => (s.updateAssignmentStatus n none).1) s

/-- The invariant claim C4 states: the grade is non-null exactly when
the status is terminal. -/
def Assignment.gradeStatusIff (a : Assignment) : Prop :=
  a.grade ≠ none ↔ (a.status = "pass" ∨ a.status = "fail")

instance (a : Assignment) : Decidable a.gradeStatusIff := by
  unfold Assignment.gradeStatusIff; infer_instance

/-- Claim C4's invariant over a whole roster. -/
def ClassList.gradeInvariantIff (cl : ClassList) : Prop :=
  ∀ s ∈ cl.students, ∀ a ∈ s.assignmentStatuses, a.gradeStatusIff

instance (cl : ClassList) : Decidable cl.gradeInvariantIff := by
  unfold ClassList.gradeInvariantIff; infer_instance

/-- The direction of C4's invariant the code does maintain: a terminal
status always comes with a stored grade. -/
def Assignment.gradeImp (a : Assignment) : Prop :=
  a.status = "pass" ∨ a.status = "fail" → a.grade ≠ none

/-- The maintained direction of the invariant over a whole roster. -/
def ClassList.gradeInvariant (cl : ClassList) : Prop :=
  ∀ s ∈ cl.students, ∀ a ∈ s.assignmentStatuses, a.gradeImp

/-- A roster reachable by public operations: one student, graded on
`"HW"` through `updateAssignmentStatus`, who then starts working on it
again. -/
def c4Roster : ClassList :=
  ClassList.empty.applyOps
    [COp.addStudent "Dana" "dana@example.com",
     COp.studentOp 0 (SOp.update "HW" (some 80)),
     COp.studentOp 0 (SOp.startW "HW")]

/-- A student graded through `updateAssignmentStatus("H1", 80)`: the
grade is stored but the cached `overallGrade` is left stale. -/
def c5Student : Student :=
  ((Student.make "Carol" "carol@example.com").updateAssignmentStatus
    "H1" (some 80)).1

/-- A student with grades 40 and 80 on two assignments, used as a
concrete instance of several claims. -/
def gradedStudent : Student :=
  ((((Student.make "Groptia" "g@example.com").updateAssignmentStatus
      "H1" (some 40)).1).updateAssignmentStatus "H2" (some 80)).1

/-- A student who has submitted `"HW"` (grading still pending). -/
def submittedStudent : Student :=
  ((Student.make "Sam" "sam@example.com").submitAssignment "HW").1

/-! ### Helper lemmas about the list operations used by the model -/

theorem updateFirst_find_self (l : List Assignment) (n : String)
    (f : Assignment → Assignment)
    (hf : ∀ a, (f a).assignmentName = a.assignmentName) :
    (updateFirst l n f).find? (fun a => a.assignmentName == n) =
      (l.find? (fun a => a.assignmentName == n)).map f := by
  induction l with
  | nil => rfl
  | cons a rest ih =>
    rw [updateFirst]
    by_cases h : (a.assignmentName == n) = true
    · have hfa : ((f a).assignmentName == n) = true := by rw [hf]; exact h
      rw [if_pos h]
      simp [List.find?, h, hfa]
    · rw [if_neg h]
      have h' : (a.assignmentName == n) = false := by
        cases hx : (a.assignmentName == n) with
        | true => exact absurd hx h
        | false => rfl
      simp [List.find?, h', ih]

theorem updateFirst_find_other (l : List Assignment) (n m : String)
    (f : Assignment → Assignment)
    (hf : ∀ a, (f a).assignmentName = a.assignmentName)
    (hnm : n ≠ m) :
    (updateFirst l n f).find? (fun a => a.assignmentName == m) =
      l.find? (fun a => a.assignmentName == m) := by
  induction l with
  | nil => rfl
  | cons a rest ih =>
    rw [updateFirst]
    by_cases h : (a.assignmentName == n) = true
    · rw [if_pos h]
      have hname : a.assignmentName = n := eq_of_beq h
      have hm : (a.assignmentName == m) = false := by
        rw [hname]; exact beq_eq_false_iff_ne.mpr hnm
      have hfm : ((f a).assignmentName == m) = false := by
        rw [hf, hname]; exact beq_eq_false_iff_ne.mpr hnm
      simp [List.find?, hm, hfm]
    · rw [if_neg h]
      cases hm : (a.assignmentName == m) with
      | true => simp [List.find?, hm]
      | false => simp [List.find?, hm, ih]

theorem find_append_single_none (l : List Assignment) (x : Assignment)
    (p : Assignment → Bool) (h : l.find? p = none) (hx : p x = true) :
    (l ++ [x]).find? p = some x := by
  rw [List.find?_append, h]
  simp [List.find?, hx]

theorem find_append_single_some (l : List Assignment) (x a : Assignment)
    (p : Assignment → Bool) (h : l.find? p = some a) :
    (l ++ [x]).find? p = some a := by
  rw [List.find?_append, h]; rfl

theorem foldl_add_getD (l : List Assignment) (c : ℚ) :
    l.foldl (fun sum a => sum + a.grade.getD 0) c =
      c + (l.map (fun a => a.grade.getD 0)).sum := by
  induction l generalizing c with
  | nil => simp
  | cons a rest ih => simp [List.foldl, ih, add_assoc]

theorem filter_map_eq_filterMap_grade (l : List Assignment) :
    (l.filter (fun a => a.grade.isSome)).map (fun a => a.grade.getD 0) =
      l.filterMap (fun a => a.grade) := by
  induction l with
  | nil => rfl
  | cons a rest ih =>
    cases h : a.grade with
    | none => simp [List.filter, List.filterMap, h, ih]
    | some g => simp [List.filter, List.filterMap, h, ih]

/-! ### Behaviour of `updateAssignmentStatus` without a grade -/

theorem update_none_statuses (s : Student) (n : String) :
    ((s.updateAssignmentStatus n none).1).assignmentStatuses =
      if (s.findAssignment n).isSome then s.assignmentStatuses
      else s.assignmentStatuses ++
        [{ Assignment.make n with status := "released" }] := rfl

theorem update_none_find_some (s : Student) (n m : String) (a : Assignment)
    (h : s.findAssignment m = some a) :
    ((s.updateAssignmentStatus n none).1).findAssignment m = some a := by
  show (((s.updateAssignmentStatus n none).1).assignmentStatuses).find?
    (fun x => x.assignmentName == m) = some a
  rw [update_none_statuses]
  by_cases hn : (s.findAssignment n).isSome
  · rw [if_pos hn]; exact h
  · rw [if_neg hn]
    exact find_append_single_some _ _ _ _ h

theorem update_none_find_new (s : Student) (n : String)
    (h : s.findAssignment n = none) :
    ((s.updateAssignmentStatus n none).1).findAssignment n =
      some { Assignment.make n with status := "released" } := by
  show (((s.updateAssignmentStatus n none).1).assignmentStatuses).find?
    (fun x => x.assignmentName == n) = _
  rw [update_none_statuses]
  have hn : ¬ (s.findAssignment n).isSome := by rw [h]; simp
  rw [if_neg hn]
  exact find_append_single_none _ _ _ h (beq_self_eq_true n)

theorem update_none_find_none_other (s : Student) (n m : String)
    (hnm : n ≠ m) (h : s.findAssignment m = none) :
    ((s.updateAssignmentStatus n none).1).findAssignment m = none := by
  show (((s.updateAssignmentStatus n none).1).assignmentStatuses).find?
    (fun x => x.assignmentName == m) = none
  rw [update_none_statuses]
  have h' : s.assignmentStatuses.find? (fun x => x.assignmentName == m) =
      none := h
  by_cases hn : (s.findAssignment n).isSome
  · rw [if_pos hn]; exact h'
  · rw [if_neg hn]
    rw [List.find?_append, h']
    simp [List.find?, beq_eq_false_iff_ne.mpr hnm, Assignment.make]

/-! ### Behaviour of the whole release batch -/

theorem releaseAll_find_some (s : Student) (names : List String)
    (n : String) (a : Assignment) (h : s.findAssignment n = some a) :
    (s.releaseAll names).findAssignment n = some a := by
  induction names generalizing s with
  | nil => exact h
  | cons m rest ih => exact ih _ (update_none_find_some s m n a h)

theorem releaseAll_find_mem (s : Student) (names : List String)
    (n : String) (hn : n ∈ names) :
    ∃ a, (s.releaseAll names).findAssignment n = some a ∧
      (∀ a₀, s.findAssignment n = some a₀ → a = a₀) ∧
      (s.findAssignment n = none → a.status = "released") := by
  induction names generalizing s with
  | nil => cases hn
  | cons m rest ih =>
    have hstep : s.releaseAll (m :: rest) =
        ((s.updateAssignmentStatus m none).1).releaseAll rest := rfl
    by_cases hm : n = m
    · subst hm
      cases h : s.findAssignment n with
      | some a₀ =>
        refine ⟨a₀, ?_, ?_, ?_⟩
        · rw [hstep]
          exact releaseAll_find_some _ _ _ _ (update_none_find_some s n n a₀ h)
        · intro a₁ h₁
          exact Option.some_injective _ h₁
        · intro h₁
          exact Option.noConfusion h₁
      | none =>
        refine ⟨{ Assignment.make n with status := "released" }, ?_, ?_, ?_⟩
        · rw [hstep]
          exact releaseAll_find_some _ _ _ _ (update_none_find_new s n h)
        · intro a₁ h₁
          exact Option.noConfusion h₁
        · intro _; rfl
    · have hn' : n ∈ rest := by
        cases hn with
        | head => exact absurd rfl hm
        | tail _ h' => exact h'
      rw [hstep]
      cases h : s.findAssignment n with
      | some a₀ =>
        have hpres := update_none_find_some s m n a₀ h
        obtain ⟨a, ha, hsome, _⟩ := ih ((s.updateAssignmentStatus m none).1) hn'
        refine ⟨a, ha, ?_, ?_⟩
        · intro a₁ h₁
          have h₂ : a₀ = a₁ := Option.some_injective _ h₁
          exact h₂ ▸ hsome a₀ hpres
        · intro h₁
          exact Option.noConfusion h₁
      | none =>
        have hpres := update_none_find_none_other s m n
          (fun hmn => hm hmn.symm) h
        obtain ⟨a, ha, _, hnone⟩ := ih ((s.updateAssignmentStatus m none).1) hn'
        refine ⟨a, ha, ?_, ?_⟩
        · intro a₁ h₁
          exact Option.noConfusion h₁
        · intro _; exact hnone hpres

theorem releaseParallel_students (cl : ClassList) (names : List String) :
    (cl.releaseAssignmentsParallel names).students =
      cl.students.map (fun s => s.releaseAll names) := by
  induction names generalizing cl with
  | nil =>
    show cl.students = cl.students.map (fun s => s)
    simp
  | cons m rest ih =>
    show ((cl.releaseOne m).releaseAssignmentsParallel rest).students = _
    rw [ih]
    show ((cl.students.map
      (fun s => (s.updateAssignmentStatus m none).1)).map
        (fun s => s.releaseAll rest)) = _
    rw [List.map_map]
    rfl

/-! ### `getGrade` computes the spec's unweighted mean -/

theorem getGrade_fst_statuses (s : Student) :
    ((s.getGrade).1).assignmentStatuses = s.assignmentStatuses := by
  unfold Student.getGrade
  by_cases h : (s.assignmentStatuses.filter (fun a => a.grade.isSome)).length = 0 <;>
    simp [h]

theorem getGrade_spec (s : Student) :
    (s.getGrade).2 = s.specOverallGrade ∧
    ((s.getGrade).1).overallGrade = s.specOverallGrade := by
  unfold Student.getGrade Student.specOverallGrade
  have hmap := filter_map_eq_filterMap_grade s.assignmentStatuses
  have hlen : (s.assignmentStatuses.filter (fun a => a.grade.isSome)).length =
      (s.assignmentStatuses.filterMap (fun a => a.grade)).length := by
    rw [← hmap, List.length_map]
  by_cases h : (s.assignmentStatuses.filter (fun a => a.grade.isSome)).length = 0
  · have he : (s.assignmentStatuses.filterMap (fun a => a.grade)).isEmpty = true := by
      rw [List.isEmpty_iff, ← List.length_eq_zero, ← hlen]
      exact h
    simp [h, he]
  · have he : ¬ (s.assignmentStatuses.filterMap (fun a => a.grade)).isEmpty = true := by
      rw [List.isEmpty_iff, ← List.length_eq_zero, ← hlen]
      exact h
    simp only [h, if_false, he]
    rw [foldl_add_getD, zero_add, hmap, hlen]
    simp

/-! ### The scan of `findOutstandingAssignments` -/

theorem outstanding_scan (l : List Student) (n : String)
    (acc : List String) (b : Bool) :
    l.foldl
      (fun (acc : List String × Bool) student =>
        match student.findAssignment n with
        | none => acc
        | some assignment =>
          let anySubmittedForName :=
            acc.2 || (assignment.status == "submitted" ||
                      assignment.status == "pass" ||
                      assignment.status == "fail")
          let outstandingForName :=
            if assignment.status != "submitted" &&
               assignment.status != "pass" &&
               assignment.status != "fail" then
              acc.1 ++ [student.fullName]
            else acc.1
          (outstandingForName, anySubmittedForName))
      (acc, b) =
    (acc ++ (ClassList.mk l).outstandingNames n,
     b || (ClassList.mk l).someoneCompleted n) := by
  induction l generalizing acc b with
  | nil => simp [ClassList.outstandingNames, ClassList.someoneCompleted]
  | cons s rest ih =>
    rw [List.foldl_cons]
    cases hf : s.findAssignment n with
    | none =>
      simp only [hf]
      rw [ih]
      simp [ClassList.outstandingNames, ClassList.someoneCompleted,
        List.filter_cons, List.any_cons, hf]
    | some a =>
      simp only [hf]
      rw [ih]
      by_cases hc : a.status = "submitted" ∨ a.status = "pass" ∨
          a.status = "fail"
      · rcases hc with h | h | h <;>
          simp [ClassList.outstandingNames, ClassList.someoneCompleted,
            List.filter_cons, List.any_cons, hf, h, Bool.or_assoc]
      · push_neg at hc
        obtain ⟨h1, h2, h3⟩ := hc
        have hb1 : (a.status == "submitted") = false :=
          beq_eq_false_iff_ne.mpr h1
        have hb2 : (a.status == "pass") = false :=
          beq_eq_false_iff_ne.mpr h2
        have hb3 : (a.status == "fail") = false :=
          beq_eq_false_iff_ne.mpr h3
        simp [ClassList.outstandingNames, ClassList.someoneCompleted,
          List.filter_cons, List.any_cons, hf, hb1, hb2, hb3, bne,
          Bool.or_assoc]

/-! ### Preservation of the maintained grade/status invariant -/

theorem gradeImp_setGrade (a : Assignment) (g : ℚ) :
    (a.setGrade g).gradeImp := by
  intro _
  simp [Assignment.setGrade]

theorem gradeImp_status_working (a : Assignment) :
    (Assignment.gradeImp { a with status := "working" }) := by
  intro h
  rcases h with h | h <;> simp at h

theorem gradeImp_status_reminder (a : Assignment) :
    (Assignment.gradeImp { a with status := "final reminder" }) := by
  intro h
  rcases h with h | h <;> simp at h

theorem gradeImp_status_submitted (a : Assignment) :
    (Assignment.gradeImp { a with isSubmitted := true, status := "submitted" }) := by
  intro h
  rcases h with h | h <;> simp at h

theorem gradeImp_make (n : String) : (Assignment.make n).gradeImp := by
  intro h
  rcases h with h | h <;> simp [Assignment.make] at h

theorem gradeImp_released (n : String) :
    (Assignment.gradeImp { Assignment.make n with status := "released" }) := by
  intro h
  rcases h with h | h <;> simp [Assignment.make] at h

theorem gradeImp_append (l : List Assignment) (x : Assignment)
    (h : ∀ a ∈ l, a.gradeImp) (hx : x.gradeImp) :
    ∀ a ∈ l ++ [x], a.gradeImp := by
  intro a ha
  rcases List.mem_append.mp ha with h1 | h1
  · exact h a h1
  · rw [List.mem_singleton] at h1
    exact h1 ▸ hx

theorem gradeImp_updateFirst (l : List Assignment) (n : String)
    (f : Assignment → Assignment) (hfok : ∀ a, (f a).gradeImp)
    (h : ∀ a ∈ l, a.gradeImp) :
    ∀ a ∈ updateFirst l n f, a.gradeImp := by
  induction l with
  | nil => intro a ha; cases ha
  | cons x rest ih =>
    intro a ha
    rw [updateFirst] at ha
    by_cases hx : (x.assignmentName == n) = true
    · rw [if_pos hx] at ha
      rcases List.mem_cons.mp ha with h1 | h1
      · exact h1 ▸ hfok x
      · exact h a (List.mem_cons_of_mem _ h1)
    · rw [if_neg hx] at ha
      rcases List.mem_cons.mp ha with h1 | h1
      · exact h1 ▸ h x (List.mem_cons_self _ _)
      · exact ih (fun a ha => h a (List.mem_cons_of_mem _ ha)) a h1

theorem sInv_update (s : Student) (n : String) (g : Option ℚ)
    (h : ∀ a ∈ s.assignmentStatuses, a.gradeImp) :
    ∀ a ∈ (((s.updateAssignmentStatus n g).1).assignmentStatuses),
      a.gradeImp := by
  unfold Student.updateAssignmentStatus
  by_cases hn : (s.findAssignment n).isSome <;>
    cases g with
    | none => simp only [hn, if_true, if_false, reduceIte]; first
        | exact h
        | exact gradeImp_append _ _ h (gradeImp_released n)
    | some gr => simp only [hn, if_true, if_false, reduceIte]; first
        | exact gradeImp_updateFirst _ _ _ (fun a => gradeImp_setGrade a gr) h
        | exact gradeImp_updateFirst _ _ _ (fun a => gradeImp_setGrade a gr)
            (gradeImp_append _ _ h (gradeImp_released n))

theorem sInv_startWorking (s : Student) (n : String)
    (h : ∀ a ∈ s.assignmentStatuses, a.gradeImp) :
    ∀ a ∈ (((s.startWorking n).1).assignmentStatuses), a.gradeImp := by
  unfold Student.startWorking
  by_cases hn : (s.findAssignment n).isSome <;>
    simp only [hn, if_true, if_false, reduceIte] <;> first
      | exact gradeImp_updateFirst _ _ _
          (fun a => gradeImp_status_working a) h
      | exact gradeImp_updateFirst _ _ _
          (fun a => gradeImp_status_working a)
          (gradeImp_append _ _ h (gradeImp_make n))

theorem sInv_submit (s : Student) (n : String)
    (h : ∀ a ∈ s.assignmentStatuses, a.gradeImp) :
    ∀ a ∈ (((s.submitAssignment n).1).assignmentStatuses), a.gradeImp := by
  unfold Student.submitAssignment
  by_cases hn : (s.findAssignment n).isSome
  · simp only [hn, reduceIte]
    by_cases ha : ((s.assignmentStatuses.find?
        (fun a => a.assignmentName == n)).map
        (fun a => a.isSubmitted)).getD false = true
    · rw [if_pos ha]
      exact h
    · rw [if_neg ha]
      exact gradeImp_updateFirst _ _ _
        (fun a => gradeImp_status_submitted a) h
  · rw [if_neg hn]
    by_cases ha : (((s.assignmentStatuses ++ [Assignment.make n]).find?
        (fun a => a.assignmentName == n)).map
        (fun a => a.isSubmitted)).getD false = true
    · rw [if_pos ha]
      exact gradeImp_append _ _ h (gradeImp_make n)
    · rw [if_neg ha]
      exact gradeImp_updateFirst _ _ _
        (fun a => gradeImp_status_submitted a)
        (gradeImp_append _ _ h (gradeImp_make n))

theorem sInv_getGrade (s : Student)
    (h : ∀ a ∈ s.assignmentStatuses, a.gradeImp) :
    ∀ a ∈ (((s.getGrade).1).assignmentStatuses), a.gradeImp := by
  rw [getGrade_fst_statuses]
  exact h

theorem sInv_gradingFire (s : Student) (n : String) (g : ℚ)
    (h : ∀ a ∈ s.assignmentStatuses, a.gradeImp) :
    ∀ a ∈ (((s.gradingFire n g).1).assignmentStatuses), a.gradeImp := by
  unfold Student.gradingFire
  rw [getGrade_fst_statuses]
  exact gradeImp_updateFirst _ _ _ (fun a => gradeImp_setGrade a g) h

theorem sInv_reminderStep (s : Student) (n : String)
    (h : ∀ a ∈ s.assignmentStatuses, a.gradeImp) :
    ∀ a ∈ (((s.reminderStep n).1).assignmentStatuses), a.gradeImp := by
  unfold Student.reminderStep
  cases hf : s.findAssignment n with
  | none => exact h
  | some a =>
    by_cases ht : (a.status == "pass" || a.status == "fail") = true
    · simp only [ht, if_true, reduceIte]
      exact h
    · simp only [ht, if_false, reduceIte]
      exact sInv_submit _ n
        (gradeImp_updateFirst _ _ _
          (fun a => gradeImp_status_reminder a) h)

theorem sInv_autoSubmitFire (s : Student) (n : String)
    (h : ∀ a ∈ s.assignmentStatuses, a.gradeImp) :
    ∀ a ∈ (((s.autoSubmitFire n).1).assignmentStatuses), a.gradeImp := by
  unfold Student.autoSubmitFire
  split
  · split
    · exact sInv_submit s n h
    · exact h
  · exact h

theorem sInv_applyOp (s : Student) (op : SOp)
    (h : ∀ a ∈ s.assignmentStatuses, a.gradeImp) :
    ∀ a ∈ ((s.applyOp op).assignmentStatuses), a.gradeImp := by
  cases op with
  | update n g => exact sInv_update s n g h
  | startW n => exact sInv_startWorking s n h
  | submit n => exact sInv_submit s n h
  | readGrade => exact sInv_getGrade s h
  | reminder n => exact sInv_reminderStep s n h
  | autoFire n => exact sInv_autoSubmitFire s n h
  | gradeFire n g => exact sInv_gradingFire s n g h

theorem sInv_releaseAll (s : Student) (names : List String)
    (h : ∀ a ∈ s.assignmentStatuses, a.gradeImp) :
    ∀ a ∈ ((s.releaseAll names).assignmentStatuses), a.gradeImp := by
  induction names generalizing s with
  | nil => exact h
  | cons m rest ih => exact ih _ (sInv_update s m none h)

theorem clInv_modifyAt (l : List Student) (i : Nat) (f : Student → Student)
    (hf : ∀ s, (∀ a ∈ s.assignmentStatuses, a.gradeImp) →
      ∀ a ∈ (f s).assignmentStatuses, a.gradeImp)
    (h : ∀ s ∈ l, ∀ a ∈ s.assignmentStatuses, a.gradeImp) :
    ∀ s ∈ modifyAt l i f, ∀ a ∈ s.assignmentStatuses, a.gradeImp := by
  induction l generalizing i with
  | nil => intro s hs; cases hs
  | cons x rest ih =>
    cases i with
    | zero =>
      intro s hs
      rcases List.mem_cons.mp hs with h1 | h1
      · exact h1 ▸ hf x (h x (List.mem_cons_self _ _))
      · exact h s (List.mem_cons_of_mem _ h1)
    | succ j =>
      intro s hs
      rcases List.mem_cons.mp hs with h1 | h1
      · exact h1 ▸ h x (List.mem_cons_self _ _)
      · exact ih j (fun s hs => h s (List.mem_cons_of_mem _ hs)) s h1

theorem clInv_applyOp (cl : ClassList) (op : COp)
    (h : cl.gradeInvariant) : (cl.applyOp op).gradeInvariant := by
  cases op with
  | addStudent fullName email =>
    intro s hs
    rcases List.mem_append.mp hs with h1 | h1
    · exact h s h1
    · rw [List.mem_singleton] at h1
      subst h1
      intro a ha
      cases ha
  | removeStudent i =>
    intro s hs
    exact h s ((List.eraseIdx_sublist cl.students i).mem hs)
  | studentOp i op =>
    exact clInv_modifyAt cl.students i _ (fun s => sInv_applyOp s op) h
  | release names =>
    intro s hs
    have hs' : s ∈ (cl.releaseAssignmentsParallel names).students := hs
    rw [releaseParallel_students] at hs'
    rcases List.mem_map.mp hs' with ⟨s₀, hs₀, rfl⟩
    exact sInv_releaseAll s₀ names (h s₀ hs₀)
  | remindAll n =>
    intro s hs
    rcases List.mem_map.mp hs with ⟨s₀, hs₀, rfl⟩
    exact sInv_reminderStep s₀ n (h s₀ hs₀)

theorem clInv_applyOps (cl : ClassList) (ops : List COp)
    (h : cl.gradeInvariant) : (cl.applyOps ops).gradeInvariant := by
  induction ops generalizing cl with
  | nil => exact h
  | cons op rest ih => exact ih _ (clInv_applyOp cl op h)

/-! ### Characterisation lemmas used by the claim theorems -/

theorem startWorking_statuses (s : Student) (n : String) :
    ((s.startWorking n).1).assignmentStatuses =
      updateFirst
        (if (s.findAssignment n).isSome then s.assignmentStatuses
         else s.assignmentStatuses ++ [Assignment.make n]) n
        (fun a => { a with status := "working" }) := rfl

theorem specOverallGrade_congr (s t : Student)
    (h : s.assignmentStatuses = t.assignmentStatuses) :
    s.specOverallGrade = t.specOverallGrade := by
  unfold Student.specOverallGrade
  rw [h]

theorem getGrade_self_spec (t : Student) :
    ((t.getGrade).1).overallGrade = ((t.getGrade).1).specOverallGrade :=
  ((getGrade_spec t).2).trans
    (specOverallGrade_congr _ _ (getGrade_fst_statuses t)).symm

/-! ### The claims -/

/-- Claim C1: `findOutstandingAssignments(n)` is the two-mode query of
the spec: when some student has an assignment named `n` with status
submitted/pass/fail, it returns exactly the names of the students whose
assignment named `n` has none of those statuses; otherwise it returns
exactly the names of all students holding at least one assignment, of
any name, with status released or working. -/
theorem c1_findOutstanding_two_mode (cl : ClassList) (n : String) :
    cl.findOutstandingAssignments n = cl.specOutstandingQuery n := by
  unfold ClassList.findOutstandingAssignments ClassList.specOutstandingQuery
  rw [outstanding_scan cl.students n [] false]
  simp only [List.nil_append, Bool.false_or]
  rfl

/-- Claim C2: after `setGrade(g)` the stored grade equals `g` and the
status is `"pass"` exactly when `g > 50`, else `"fail"`; at the boundary
`g = 50` yields `"fail"` and `g = 51` yields `"pass"`. -/
theorem c2_setGrade_boundary (a : Assignment) (g : ℚ) :
    (a.setGrade g).grade = some g ∧
    ((a.setGrade g).status = "pass" ↔ g > 50) ∧
    ((a.setGrade g).status = "fail" ↔ ¬ g > 50) ∧
    (a.setGrade 50).status = "fail" ∧
    (a.setGrade 51).status = "pass" := by
  refine ⟨rfl, ?_, ?_, ?_, ?_⟩
  · unfold Assignment.setGrade
    by_cases hg : g > 50 <;> simp [hg]
  · unfold Assignment.setGrade
    by_cases hg : g > 50 <;> simp [hg]
  · have h50 : ¬ (50 : ℚ) > 50 := by norm_num
    simp [Assignment.setGrade, h50]
  · have h51 : (51 : ℚ) > 50 := by norm_num
    simp [Assignment.setGrade, h51]

/-- Claim C3: `submitAssignment(n)` on an assignment already flagged
`isSubmitted` is a complete no-op: the student (hence the assignment's
status, grade and `isSubmitted` flag) is unchanged, no notification is
recorded, and no grading event is scheduled. -/
theorem c3_submit_idempotent (s : Student) (n : String) (a : Assignment)
    (hf : s.findAssignment n = some a) (hs : a.isSubmitted = true) :
    s.submitAssignment n = (s, [], []) := by
  unfold Student.submitAssignment
  have hn : (s.findAssignment n).isSome = true := by rw [hf]; rfl
  rw [if_pos hn]
  have hfind : s.assignmentStatuses.find?
      (fun a => a.assignmentName == n) = some a := hf
  simp [hfind, hs]

/-- Witness for C3 at a concrete submitted student. -/
theorem c3_witness :
    submittedStudent.submitAssignment "HW" = (submittedStudent, [], []) :=
  c3_submit_idempotent submittedStudent "HW"
    { assignmentName := "HW", status := "submitted", grade := none,
      isSubmitted := true } (by decide) (by decide)

/-- Claim C4 as stated is false: the roster `c4Roster`, reached from an
empty class by public operations (`updateAssignmentStatus` with a grade,
then `startWorking`), contains an assignment whose grade is non-null
while its status is `"working"`. -/
theorem c4_counterexample : ¬ c4Roster.gradeInvariantIff := by decide

/-- Claim C4 amended: in every roster reachable from an empty class by
public `Student` and `ClassList` operations (deferred callbacks
included), a status of `"pass"` or `"fail"` implies a non-null grade.
The converse direction of the claimed invariant is the part refuted by
the counterexample: `startWorking` resets the status to `"working"` but
keeps the grade. -/
theorem c4_terminal_status_has_grade (ops : List COp) :
    (ClassList.empty.applyOps ops).gradeInvariant :=
  clInv_applyOps ClassList.empty ops (fun s hs => absurd hs (by simp [ClassList.empty]))

/-- Claim C5 as stated is false: `updateAssignmentStatus` with a numeric
grade stores the grade but does not refresh the cached `overallGrade`;
after grading `"H1"` with 80 on a fresh student the cache still holds
`none` while the mean of the graded assignments is 80. -/
theorem c5_counterexample :
    c5Student.overallGrade = none ∧
    c5Student.specOverallGrade = some 80 ∧
    c5Student.overallGrade ≠ c5Student.specOverallGrade := by
  have h1 : c5Student.overallGrade = none := by decide
  have h2 : c5Student.specOverallGrade = some 80 := by
    simp [c5Student, Student.specOverallGrade, Student.make,
      Student.updateAssignmentStatus, Student.findAssignment,
      Assignment.make, Assignment.setGrade, updateFirst, Student.notifOf,
      List.find?, List.filterMap]
  refine ⟨h1, h2, ?_⟩
  rw [h1, h2]
  simp

/-- Claim C5 amended: the deferred grading event does recompute and
store the cache: after `gradingFire` the student's `overallGrade` equals
the unweighted mean of the graded assignments of the resulting state
(`none` if there are none).  `updateAssignmentStatus` with a numeric
grade leaves the cache stale, as the counterexample shows. -/
theorem c5_grading_event_recomputes (s : Student) (n : String) (g : ℚ) :
    ((s.gradingFire n g).1).overallGrade =
      ((s.gradingFire n g).1).specOverallGrade :=
  getGrade_self_spec _

/-- Claim C6: `getGrade()` returns, and caches in `overallGrade`, the
unweighted arithmetic mean of the grades of exactly the graded
assignments, `none` when no assignment has a numeric grade; on the
student with grades 40 and 80 it returns 60. -/
theorem c6_getGrade_mean (s : Student) :
    (s.getGrade).2 = s.specOverallGrade ∧
    ((s.getGrade).1).overallGrade = s.specOverallGrade ∧
    (gradedStudent.getGrade).2 = some 60 := by
  refine ⟨(getGrade_spec s).1, (getGrade_spec s).2, ?_⟩
  simp [gradedStudent, Student.getGrade, Student.make,
    Student.updateAssignmentStatus, Student.findAssignment,
    Assignment.make, Assignment.setGrade, updateFirst, Student.notifOf,
    List.find?, List.filter]
  norm_num

/-- Claim C7: `sendReminder(n)` applies the per-student reminder step in
roster order; a student lacking the assignment, or whose assignment is
already `"pass"`/`"fail"`, is left unchanged with no notification; any
other student has the assignment's status forced to `"final reminder"`,
one reminder notification emitted, and `submitAssignment(n)` invoked on
the updated student. -/
theorem c7_sendReminder_spec (cl : ClassList) (n : String) :
    ((cl.sendReminder n).1).students =
      cl.students.map (fun s => (s.reminderStep n).1) ∧
    ((cl.sendReminder n).2.1) =
      cl.students.flatMap (fun s => (s.reminderStep n).2.1) ∧
    (∀ s : Student,
      (s.findAssignment n = none → s.reminderStep n = (s, [], [])) ∧
      (∀ a, s.findAssignment n = some a →
        a.status = "pass" ∨ a.status = "fail" →
        s.reminderStep n = (s, [], [])) ∧
      (∀ a, s.findAssignment n = some a →
        a.status ≠ "pass" → a.status ≠ "fail" →
        s.reminderStep n =
          (((s.withFinalReminder n).submitAssignment n).1,
           ⟨s.fullName, n, "final reminder"⟩ ::
             ((s.withFinalReminder n).submitAssignment n).2.1,
           ((s.withFinalReminder n).submitAssignment n).2.2))) := by
  refine ⟨rfl, rfl, ?_⟩
  intro s
  refine ⟨?_, ?_, ?_⟩
  · intro hf
    simp only [Student.reminderStep, hf]
  · intro a hf ht
    have hb : (a.status == "pass" || a.status == "fail") = true := by
      rcases ht with h | h <;> simp [h]
    simp only [Student.reminderStep, hf, hb, reduceIte]
  · intro a hf hp hq
    have hbf : (a.status == "pass" || a.status == "fail") = false := by
      simp [beq_eq_false_iff_ne.mpr hp, beq_eq_false_iff_ne.mpr hq]
    simp only [Student.reminderStep, hf, hbf, Bool.false_eq_true, if_false]
    have hfind : s.assignmentStatuses.find?
        (fun x => x.assignmentName == n) = some a := hf
    have hpa : (a.assignmentName == n) = true :=
      @List.find?_some Assignment (fun x => x.assignmentName == n) a
        s.assignmentStatuses hfind
    have hname : a.assignmentName = n := eq_of_beq hpa
    have hfr : (s.withFinalReminder n).findAssignment n =
        some { a with status := "final reminder" } := by
      show (updateFirst s.assignmentStatuses n
        (fun a => { a with status := "final reminder" })).find?
          (fun x => x.assignmentName == n) = _
      rw [updateFirst_find_self s.assignmentStatuses n
        (fun a => { a with status := "final reminder" }) (fun a => rfl)]
      rw [hfind]
      rfl
    have hnot : (s.withFinalReminder n).notifOf n =
        [⟨s.fullName, n, "final reminder"⟩] := by
      simp only [Student.notifOf, hfr]
      simp [Student.withFinalReminder, hname]
    show (((s.withFinalReminder n).submitAssignment n).1,
        (s.withFinalReminder n).notifOf n ++
          ((s.withFinalReminder n).submitAssignment n).2.1,
        ((s.withFinalReminder n).submitAssignment n).2.2) = _
    rw [hnot]
    rfl

/-- Witness for C7: the reminder step on a student whose assignment is
already passed is a no-op with no notification. -/
theorem c7_witness :
    gradedStudent.reminderStep "H2" = (gradedStudent, [], []) :=
  ((c7_sendReminder_spec ClassList.empty "H2").2.2 gradedStudent).2.1
    { assignmentName := "H2", status := "pass", grade := some 80,
      isSubmitted := false } (by decide) (Or.inl rfl)

/-- Claim C8: `getAssignmentStatus(n)` returns `"Hasn\x27t been
assigned"` when the assignment is missing, `"Pass"`/`"Fail"` for the
internal terminal tokens, the raw status string otherwise, and never the
internal lowercase `"pass"`/`"fail"` tokens. -/
theorem c8_getAssignmentStatus_values (s : Student) (n : String) :
    (s.findAssignment n = none →
      s.getAssignmentStatus n = "Hasn\x27t been assigned") ∧
    (∀ a, s.findAssignment n = some a →
      (a.status = "pass" → s.getAssignmentStatus n = "Pass") ∧
      (a.status = "fail" → s.getAssignmentStatus n = "Fail") ∧
      (a.status ≠ "pass" → a.status ≠ "fail" →
        s.getAssignmentStatus n = a.status)) ∧
    s.getAssignmentStatus n ≠ "pass" ∧
    s.getAssignmentStatus n ≠ "fail" := by
  cases hf : s.findAssignment n with
  | none =>
    have hr : s.getAssignmentStatus n = "Hasn\x27t been assigned" := by
      simp only [Student.getAssignmentStatus, hf]
    refine ⟨fun _ => hr, ?_, ?_, ?_⟩
    · intro a ha
      exact Option.noConfusion ha
    · rw [hr]; simp
    · rw [hr]; simp
  | some a =>
    by_cases hp : a.status = "pass"
    · have hb : (a.status == "pass") = true := beq_iff_eq.mpr hp
      have hr : s.getAssignmentStatus n = "Pass" := by
        simp only [Student.getAssignmentStatus, hf, hb, reduceIte]
      refine ⟨?_, ?_, ?_, ?_⟩
      · intro h; exact Option.noConfusion h
      · intro a' ha'
        cases Option.some_injective _ ha'
        refine ⟨fun _ => hr, fun hq => ?_, fun hnp _ => absurd hp hnp⟩
        exact absurd (hp.symm.trans hq) (by simp)
      · rw [hr]; simp
      · rw [hr]; simp
    · by_cases hq : a.status = "fail"
      · have hb1 : (a.status == "pass") = false := beq_eq_false_iff_ne.mpr hp
        have hb2 : (a.status == "fail") = true := beq_iff_eq.mpr hq
        have hr : s.getAssignmentStatus n = "Fail" := by
          simp only [Student.getAssignmentStatus, hf, hb1, hb2,
            Bool.false_eq_true, if_false, reduceIte]
        refine ⟨?_, ?_, ?_, ?_⟩
        · intro h; exact Option.noConfusion h
        · intro a' ha'
          cases Option.some_injective _ ha'
          refine ⟨fun hp' => absurd hp' hp, fun _ => hr,
            fun _ hnq => absurd hq hnq⟩
        · rw [hr]; simp
        · rw [hr]; simp
      · have hb1 : (a.status == "pass") = false := beq_eq_false_iff_ne.mpr hp
        have hb2 : (a.status == "fail") = false := beq_eq_false_iff_ne.mpr hq
        have hr : s.getAssignmentStatus n = a.status := by
          simp only [Student.getAssignmentStatus, hf, hb1, hb2,
            Bool.false_eq_true, if_false]
        refine ⟨?_, ?_, ?_, ?_⟩
        · intro h; exact Option.noConfusion h
        · intro a' ha'
          cases Option.some_injective _ ha'
          refine ⟨fun hp' => absurd hp' hp, fun hq' => absurd hq' hq,
            fun _ _ => hr⟩
        · rw [hr]; exact hp
        · rw [hr]; exact hq

/-- Witness for C8: a graded-to-pass assignment reads back as
`"Pass"`. -/
theorem c8_witness : gradedStudent.getAssignmentStatus "H2" = "Pass" :=
  ((c8_getAssignmentStatus_values gradedStudent "H2").2.1
    { assignmentName := "H2", status := "pass", grade := some 80,
      isSubmitted := false } (by decide)).1 rfl

/-- Claim C9: the state in which `releaseAssignmentsParallel(names)`
resolves is the per-student release of every name of the batch, applied
to the whole roster; afterwards every student holds an assignment for
each name of the batch, with status `"released"` when it did not exist
before, while a pre-existing assignment is kept completely unchanged
(its prior status included). -/
theorem c9_releaseParallel_resolved (cl : ClassList)
    (names : List String) :
    (cl.releaseAssignmentsParallel names).students =
      cl.students.map (fun s => s.releaseAll names) ∧
    (∀ (s : Student) (n : String), n ∈ names →
      ∃ a, (s.releaseAll names).findAssignment n = some a ∧
        (∀ a₀, s.findAssignment n = some a₀ → a = a₀) ∧
        (s.findAssignment n = none → a.status = "released")) :=
  ⟨releaseParallel_students cl names,
   fun s n hn => releaseAll_find_mem s names n hn⟩

/-- Witness for C9: releasing the batch `["HW1", "HW2"]` to a fresh
student yields an assignment named `"HW1"`. -/
theorem c9_witness :
    ∃ a, ((Student.make "Ana" "ana@example.com").releaseAll
        ["HW1", "HW2"]).findAssignment "HW1" = some a ∧
      (∀ a₀, (Student.make "Ana" "ana@example.com").findAssignment "HW1" =
        some a₀ → a = a₀) ∧
      ((Student.make "Ana" "ana@example.com").findAssignment "HW1" = none →
        a.status = "released") :=
  (c9_releaseParallel_resolved
    { students := [Student.make "Ana" "ana@example.com"] }
    ["HW1", "HW2"]).2 (Student.make "Ana" "ana@example.com") "HW1"
    (by decide)

/-- Claim C10: `startWorking(n)` unconditionally sets the named
assignment's status to `"working"` (creating the assignment first when
absent), even when it is already submitted or graded; the `isSubmitted`
flag and the stored grade are retained. -/
theorem c10_startWorking_overrides (s : Student) (n : String) :
    ∃ a', ((s.startWorking n).1).findAssignment n = some a' ∧
      a'.status = "working" ∧
      (∀ a, s.findAssignment n = some a →
        a'.isSubmitted = a.isSubmitted ∧ a'.grade = a.grade) ∧
      (s.findAssignment n = none →
        a'.isSubmitted = false ∧ a'.grade = none) := by
  cases hf : s.findAssignment n with
  | some a =>
    have hbase : (if (s.findAssignment n).isSome then s.assignmentStatuses
        else s.assignmentStatuses ++ [Assignment.make n]) =
        s.assignmentStatuses := by rw [hf]; rfl
    have hfind : s.assignmentStatuses.find?
        (fun x => x.assignmentName == n) = some a := hf
    have hres : ((s.startWorking n).1).findAssignment n =
        some { a with status := "working" } := by
      show (((s.startWorking n).1).assignmentStatuses).find?
        (fun x => x.assignmentName == n) = _
      rw [startWorking_statuses, hbase,
        updateFirst_find_self s.assignmentStatuses n
          (fun a => { a with status := "working" }) (fun a => rfl),
        hfind]
      rfl
    refine ⟨{ a with status := "working" }, hres, rfl, ?_, ?_⟩
    · intro a₀ h₀
      cases Option.some_injective _ h₀
      exact ⟨rfl, rfl⟩
    · intro h₀
      exact Option.noConfusion h₀
  | none =>
    have hbase : (if (s.findAssignment n).isSome then s.assignmentStatuses
        else s.assignmentStatuses ++ [Assignment.make n]) =
        s.assignmentStatuses ++ [Assignment.make n] := by rw [hf]; rfl
    have hfind : s.assignmentStatuses.find?
        (fun x => x.assignmentName == n) = none := hf
    have happ : (s.assignmentStatuses ++ [Assignment.make n]).find?
        (fun x => x.assignmentName == n) = some (Assignment.make n) :=
      find_append_single_none _ _ _ hfind (beq_self_eq_true n)
    have hres : ((s.startWorking n).1).findAssignment n =
        some { Assignment.make n with status := "working" } := by
      show (((s.startWorking n).1).assignmentStatuses).find?
        (fun x => x.assignmentName == n) = _
      rw [startWorking_statuses, hbase,
        updateFirst_find_self (s.assignmentStatuses ++ [Assignment.make n]) n
          (fun a => { a with status := "working" }) (fun a => rfl),
        happ]
      rfl
    refine ⟨{ Assignment.make n with status := "working" }, hres, rfl,
      ?_, fun _ => ⟨rfl, rfl⟩⟩
    intro a₀ h₀
    exact Option.noConfusion h₀

/-- Witness for C10: starting work on an already graded assignment
resets its status to `"working"` while keeping the stored grade. -/
theorem c10_witness :
    ∃ a', ((gradedStudent.startWorking "H2").1).findAssignment "H2" =
        some a' ∧
      a'.status = "working" ∧
      (∀ a, gradedStudent.findAssignment "H2" = some a →
        a'.isSubmitted = a.isSubmitted ∧ a'.grade = a.grade) ∧
      (gradedStudent.findAssignment "H2" = none →
        a'.isSubmitted = false ∧ a'.grade = none) :=
  c10_startWorking_overrides gradedStudent "H2"
